import Mathlib

/-!
Verification of the yoha hand-tracking core against its specification.

The TypeScript sources are shallowly embedded: JavaScript `number` values
become real numbers `ℝ` for the geometric pipeline (which uses `sqrt`,
`cos`, `sin`, `atan2`) and rational numbers `ℚ` for the classifier
probabilities and configuration scalars (which only ever undergo field
arithmetic and comparisons).  A 2D point `number[]` becomes `Vec2 := ℝ × ℝ`
(every call site in the verified portion of the code passes 2-element
arrays, so the dynamic length checks of the vector helpers cannot fire and
the pair representation is faithful).  JavaScript out-of-range list
indexing is modelled with `List.getD`; all claims quantify over inputs of
the correct length, where `getD` coincides with actual indexing.
Functions that `throw` are embedded with `Except String`.
-/

open scoped Real

namespace Yoha

/-- A 2D point / 2D vector (`number[]` of length 2 in the source). -/
abbrev Vec2 : Type := ℝ × ℝ

/-! ### util/math_helper.ts -/

/-- Source `AddVectors` from math_helper.ts: elementwise `a + b`. -/
def AddVectors (a b : Vec2) : Vec2 := (a.1 + b.1, a.2 + b.2)

/-- Source `SubtractVectors` from math_helper.ts: elementwise `a - b`. -/
def SubtractVectors (a b : Vec2) : Vec2 := (a.1 - b.1, a.2 - b.2)

/-- Source `MultiplyVectors` from math_helper.ts: elementwise `a * b`. -/
def MultiplyVectors (a b : Vec2) : Vec2 := (a.1 * b.1, a.2 * b.2)

/-- Source `DivideVectors` from math_helper.ts: elementwise `a / b`. -/
noncomputable def DivideVectors (a b : Vec2) : Vec2 := (a.1 / b.1, a.2 / b.2)

/-- Source `ComputeL2Norm` from math_helper.ts. -/
noncomputable def ComputeL2Norm (a : Vec2) : ℝ := Real.sqrt (a.1 ^ 2 + a.2 ^ 2)

/-- Source `ComputeDistanceBetweenVectors` from math_helper.ts: `|v1 - v2|_2`. -/
noncomputable def ComputeDistanceBetweenVectors (v1 v2 : Vec2) : ℝ :=
  ComputeL2Norm (SubtractVectors v1 v2)

/-- Source `NormalizeVector` from math_helper.ts: scale to unit vector
(the source does not guard the zero vector; in the `ℝ` model `x / 0 = 0`). -/
noncomputable def NormalizeVector (a : Vec2) : Vec2 :=
  (a.1 / ComputeL2Norm a, a.2 / ComputeL2Norm a)

/-- Source `MakeCoordsAbsolute` from math_helper.ts: relative `[0,1]` coordinates to
absolute pixel coordinates. -/
def MakeCoordsAbsolute (coords : List Vec2) (widthPx heightPx : ℝ) : List Vec2 :=
  coords.map fun c => (c.1 * (widthPx - 1), c.2 * (heightPx - 1))

/-- Source `DegreesToRadians` from math_helper.ts. -/
noncomputable def DegreesToRadians (degrees : ℝ) : ℝ := degrees * (π / 180)

/-- Source `RadiansToDegrees` from math_helper.ts. -/
noncomputable def RadiansToDegrees (radians : ℝ) : ℝ := radians * (180 / π)

/-- The 2-row, 3-column affine rotation matrix produced by
`ComputeRotationMatrix2D` (source represents it as `number[][]`). -/
structure RotMat2D where
  m00 : ℝ
  m01 : ℝ
  m02 : ℝ
  m10 : ℝ
  m11 : ℝ
  m12 : ℝ

/-- Source `ComputeRotationMatrix2D` from math_helper.ts (OpenCV
`getRotationMatrix2D` semantics). -/
noncomputable def ComputeRotationMatrix2D (center : Vec2) (angleInDegrees : ℝ)
    (scale : ℝ) : RotMat2D :=
  let rotationInRadians := DegreesToRadians angleInDegrees
  let cosAngle := Real.cos rotationInRadians
  let sinAngle := Real.sin rotationInRadians
  let alpha := scale * cosAngle
  let beta := scale * sinAngle
  { m00 := alpha
    m01 := beta
    m02 := (1 - alpha) * center.1 - beta * center.2
    m10 := -beta
    m11 := alpha
    m12 := beta * center.1 + (1 - alpha) * center.2 }

/-- Source `Apply2DRotMatTo2DVec` from math_helper.ts: homogeneous application of a
2×3 affine matrix to a 2D point (the inner `MatVecMul` dimension checks
cannot fire for this fixed shape). -/
def Apply2DRotMatTo2DVec (m : RotMat2D) (v : Vec2) : Vec2 :=
  (m.m00 * v.1 + m.m01 * v.2 + m.m02, m.m10 * v.1 + m.m11 * v.2 + m.m12)

/-- Source `Apply2DRotMatTo2DVecs` from math_helper.ts. -/
def Apply2DRotMatTo2DVecs (m : RotMat2D) (v : List Vec2) : List Vec2 :=
  v.map (Apply2DRotMatTo2DVec m)

/-- Source `AspectRatioAwareRotation` from math_helper.ts.  The class fields
computed by `Initialize_` are modelled as derived definitions below. -/
structure AspectRatioAwareRotation where
  rotationCenter : Vec2
  rotationInRadians : ℝ
  aspectRatio : Vec2

namespace AspectRatioAwareRotation

/-- The x-scale `aspectRatio[0] / aspectRatio[1]` used throughout the class. -/
noncomputable def maxX (r : AspectRatioAwareRotation) : ℝ :=
  r.aspectRatio.1 / r.aspectRatio.2

/-- Source `aspectRatioAwareRotationCenter_` computed in `Initialize_`. -/
noncomputable def aspectRatioAwareRotationCenter (r : AspectRatioAwareRotation) :
    Vec2 :=
  (r.rotationCenter.1 * r.maxX, r.rotationCenter.2)

/-- Source `rotMat_` computed in `Initialize_`. -/
noncomputable def rotMat (r : AspectRatioAwareRotation) : RotMat2D :=
  ComputeRotationMatrix2D r.aspectRatioAwareRotationCenter
    (-(RadiansToDegrees r.rotationInRadians)) 1

/-- Source `reverseRotMat_` computed in `Initialize_`. -/
noncomputable def reverseRotMat (r : AspectRatioAwareRotation) : RotMat2D :=
  ComputeRotationMatrix2D r.aspectRatioAwareRotationCenter
    (RadiansToDegrees r.rotationInRadians) 1

/-- Source `ApplyInternal_` from math_helper.ts: x-rescale by `maxX`, apply the
(forward or reverse) rotation matrix, rescale back. -/
noncomputable def ApplyInternal (r : AspectRatioAwareRotation)
    (coords : List Vec2) (reverse : Bool) : List Vec2 :=
  let aspectRatioAwareCoords := coords.map fun c => MultiplyVectors c (r.maxX, 1)
  let mat := if reverse then r.reverseRotMat else r.rotMat
  let rotatedCoords := Apply2DRotMatTo2DVecs mat aspectRatioAwareCoords
  rotatedCoords.map fun c => DivideVectors c (r.maxX, 1)

/-- Source `Apply` from math_helper.ts. -/
noncomputable def Apply (r : AspectRatioAwareRotation) (coords : List Vec2) :
    List Vec2 :=
  r.ApplyInternal coords false

/-- Source `ApplyReverse` from math_helper.ts. -/
noncomputable def ApplyReverse (r : AspectRatioAwareRotation) (coords : List Vec2) :
    List Vec2 :=
  r.ApplyInternal coords true

end AspectRatioAwareRotation

/-- Source `IExtremumCoords` from math_helper.ts. -/
structure ExtremumCoords where
  minX : Vec2
  maxX : Vec2
  minY : Vec2
  maxY : Vec2

/-- One iteration of the loop body of `ComputeExtremumCoords` (after the
first element has initialized the four slots): strict comparisons, so ties
keep the earlier element. -/
noncomputable def ExtremumStep (acc : ExtremumCoords) (c : Vec2) : ExtremumCoords :=
  { minX := if c.1 < acc.minX.1 then c else acc.minX
    minY := if c.2 < acc.minY.2 then c else acc.minY
    maxX := if c.1 > acc.maxX.1 then c else acc.maxX
    maxY := if c.2 > acc.maxY.2 then c else acc.maxY }

/-- Source `ComputeExtremumCoords` from math_helper.ts.  The source initializes the
four slots with `null` and returns them unchanged for an empty input; this
is modelled with `Option`. -/
noncomputable def ComputeExtremumCoords (coords : List Vec2) : Option ExtremumCoords :=
  match coords with
  | [] => none
  | c :: rest => some (rest.foldl ExtremumStep ⟨c, c, c, c⟩)

/-- Source `FlipCoordsHorizontally` from math_helper.ts: `[x, y] → [1 - x, y]`. -/
def FlipCoordsHorizontally (coords : List Vec2) : List Vec2 :=
  coords.map fun c => (1 - c.1, c.2)

/-- Source `CoordsOutsideBox` from math_helper.ts.  The box is the pair
(topLeft, bottomRight); the source's length-2 check on the box array is
enforced by the pair type. -/
def CoordsOutsideBox (box : Vec2 × Vec2) (coords : List Vec2) : List Vec2 :=
  let boxWidth := box.2.1 - box.1.1
  let boxHeight := box.2.2 - box.1.2
  coords.map fun c => (box.1.1 + c.1 * boxWidth, box.1.2 + c.2 * boxHeight)

/-- Source `CoordsInsideBox` from math_helper.ts (the inverse crop/padding map,
written exactly as in the source via paddings `1 - boxWidth`,
`1 - boxHeight`). -/
noncomputable def CoordsInsideBox (box : Vec2 × Vec2) (coords : List Vec2) : List Vec2 :=
  let boxWidth := box.2.1 - box.1.1
  let boxHeight := box.2.2 - box.1.2
  let xPadding := 1 - boxWidth
  let yPadding := 1 - boxHeight
  let adj := fun (v origin totalPadding : ℝ) => (v - origin) * (1 / (1 - totalPadding))
  coords.map fun c => (adj c.1 box.1.1 xPadding, adj c.2 box.1.2 yPadding)

/-! ### core/pre_model/preproc_comp.ts -/

/-- Source `IPreprocInfo` from preproc_comp.ts: the transform descriptor. -/
structure PreprocInfo where
  rotationCenter : Vec2
  rotationInRadians : ℝ
  topLeft : Vec2
  bottomRight : Vec2
  flip : Bool

/-- JavaScript `Math.atan2(y, x)`, modelled as the complex argument of
`x + iy` (range `(-π, π]`, `atan2 0 0 = 0`, matching `Math.atan2`). -/
noncomputable def atan2 (y x : ℝ) : ℝ := Complex.arg ⟨x, y⟩

/-- The `SixPointRotationCalculation` class of preproc_comp.ts, collapsed
to the one value it exposes (`GetRotationInRadians` after the constructor
ran `Initialize_`): aspect-correct both reference points, form the palm
line bottom→top, normalize it, rotate 90° to the across-palm axis, negate
y for the image-coordinate flip, and take `atan2`. -/
noncomputable def SixPointRotationInRadians (palmBottom palmTop ar : Vec2) : ℝ :=
  let maxX := ar.1 / ar.2
  let palmTopAdj := MultiplyVectors palmTop (maxX, 1)
  let palmBottomAdj := MultiplyVectors palmBottom (maxX, 1)
  let palmLine := SubtractVectors palmTopAdj palmBottomAdj
  let normalizedPalmLine := NormalizeVector palmLine
  let mainJointLine := (-(normalizedPalmLine.2), normalizedPalmLine.1)
  let carthesianMainJointLine := (mainJointLine.1, -(mainJointLine.2))
  atan2 carthesianMainJointLine.2 carthesianMainJointLine.1

/-- Source `ComputeTopLeftBottomRightFromExtremumCoords` from preproc_comp.ts,
taking the four entries of the `[minX, maxX, minY, maxY]` array it is
passed. -/
def ComputeTopLeftBottomRightFromExtremumCoords (eminX emaxX eminY emaxY : Vec2) :
    Vec2 × Vec2 :=
  ((eminX.1, eminY.2), (emaxX.1, emaxY.2))

/-- Source `AddBoxSlack` from preproc_comp.ts: slack is
`distance(absCoords[0], absCoords[1]) * slack` in pixel space, applied to
each side after converting back to relative units per axis. -/
noncomputable def AddBoxSlack (boxCoords : List Vec2)
    (topLeftBottomRight : Vec2 × Vec2) (ar : Vec2) (slack : ℝ) : Vec2 × Vec2 :=
  let absCoords := MakeCoordsAbsolute boxCoords ar.1 ar.2
  let slackPx :=
    ComputeDistanceBetweenVectors (absCoords.getD 0 (0, 0)) (absCoords.getD 1 (0, 0))
      * slack
  ((topLeftBottomRight.1.1 - slackPx / ar.1, topLeftBottomRight.1.2 - slackPx / ar.2),
   (topLeftBottomRight.2.1 + slackPx / ar.1, topLeftBottomRight.2.2 + slackPx / ar.2))

/-- Source `ComputePreprocInfoFromBoxCoords` from preproc_comp.ts.  The source
`throw 'wrong num coords'` on a length mismatch is modelled with
`Except.error`. -/
noncomputable def ComputePreprocInfoFromBoxCoords (coords : List Vec2) (ar : Vec2)
    (slack : ℝ) : Except String PreprocInfo :=
  if coords.length ≠ 6 then Except.error "wrong num coords" else
  let rotationInRadians :=
    SixPointRotationInRadians (coords.getD 0 (0, 0)) (coords.getD 1 (0, 0)) ar
  let extremumCoords :=
    [coords.getD 2 (0, 0), coords.getD 3 (0, 0),
     coords.getD 4 (0, 0), coords.getD 5 (0, 0)]
  let rotationCenter :=
    DivideVectors (AddVectors (coords.getD 0 (0, 0)) (coords.getD 1 (0, 0))) (2, 2)
  let araRot : AspectRatioAwareRotation := ⟨rotationCenter, rotationInRadians, ar⟩
  let rotatedExtremumCoords := araRot.Apply extremumCoords
  let topLeftBottomRight := ComputeTopLeftBottomRightFromExtremumCoords
    (rotatedExtremumCoords.getD 0 (0, 0)) (rotatedExtremumCoords.getD 1 (0, 0))
    (rotatedExtremumCoords.getD 2 (0, 0)) (rotatedExtremumCoords.getD 3 (0, 0))
  let topLeftBottomRight2 := AddBoxSlack coords topLeftBottomRight ar slack
  Except.ok
    { rotationCenter := rotationCenter
      rotationInRadians := rotationInRadians
      topLeft := topLeftBottomRight2.1
      bottomRight := topLeftBottomRight2.2
      flip := false }

/-- Source `AddLanSlack` from preproc_comp.ts: slack is `slack` times the maximum
of the fixed set of six pairwise distances
(20,16), (20,1), (20,5), (20,9), (20,13), (13,1) measured in absolute
pixel coordinates, applied to each side after converting back to relative
units per axis (the `maxDistance` loop starts from `-1` exactly as in the
source). -/
noncomputable def AddLanSlack (topLeftBottomRight : Vec2 × Vec2) (ar : Vec2)
    (slack : ℝ) (coords : List Vec2) : Vec2 × Vec2 :=
  let absCoords := MakeCoordsAbsolute coords ar.1 ar.2
  let distances :=
    [ComputeDistanceBetweenVectors (absCoords.getD 20 (0, 0)) (absCoords.getD 16 (0, 0)),
     ComputeDistanceBetweenVectors (absCoords.getD 20 (0, 0)) (absCoords.getD 1 (0, 0)),
     ComputeDistanceBetweenVectors (absCoords.getD 20 (0, 0)) (absCoords.getD 5 (0, 0)),
     ComputeDistanceBetweenVectors (absCoords.getD 20 (0, 0)) (absCoords.getD 9 (0, 0)),
     ComputeDistanceBetweenVectors (absCoords.getD 20 (0, 0)) (absCoords.getD 13 (0, 0)),
     ComputeDistanceBetweenVectors (absCoords.getD 13 (0, 0)) (absCoords.getD 1 (0, 0))]
  let maxDistance := distances.foldl max (-1)
  let slackPx := slack * maxDistance
  ((topLeftBottomRight.1.1 - slackPx / ar.1, topLeftBottomRight.1.2 - slackPx / ar.2),
   (topLeftBottomRight.2.1 + slackPx / ar.1, topLeftBottomRight.2.2 + slackPx / ar.2))

/-- Source `ComputePreprocInfoFromLanCoords` from preproc_comp.ts.  The empty
coordinate list (on which the source would crash dereferencing the `null`
extremum slots) is given the harmless default extremum record; every claim
about this function concerns 21-point lists, where the branch is dead. -/
noncomputable def ComputePreprocInfoFromLanCoords (coords : List Vec2) (ar : Vec2)
    (slack : ℝ) : PreprocInfo :=
  let palmBottom := coords.getD 20 (0, 0)
  let palmTop := coords.getD 5 (0, 0)
  let rotationCenter := DivideVectors (AddVectors palmBottom palmTop) (2, 2)
  let rotationInRadians := SixPointRotationInRadians palmBottom palmTop ar
  let araRot : AspectRatioAwareRotation := ⟨rotationCenter, rotationInRadians, ar⟩
  let rotatedCoords := araRot.Apply coords
  let ec := (ComputeExtremumCoords rotatedCoords).getD
    ⟨(0, 0), (0, 0), (0, 0), (0, 0)⟩
  let topLeftBottomRight :=
    ComputeTopLeftBottomRightFromExtremumCoords ec.minX ec.maxX ec.minY ec.maxY
  let topLeftBottomRight2 := AddLanSlack topLeftBottomRight ar slack coords
  { rotationCenter := rotationCenter
    rotationInRadians := rotationInRadians
    topLeft := topLeftBottomRight2.1
    bottomRight := topLeftBottomRight2.2
    flip := false }

/-! ### core/post_model/post_model.ts -/

/-- Source `IPoseProbabilities` from post_model.ts. -/
structure PoseProbabilities where
  pinchProb : ℚ
  fistProb : ℚ
  deriving DecidableEq

/-- Source `ITrackResult` from post_model.ts. -/
structure TrackResult where
  coordinates : List Vec2
  isLeftHandProb : ℚ
  isHandPresentProb : ℚ
  poses : PoseProbabilities

/-- Source `USER_FRIENDLY_COORD_ORDER` from post_model.ts. -/
def USER_FRIENDLY_COORD_ORDER : List ℕ :=
  [17, 16, 18, 19, 1, 0, 2, 3, 5, 4, 6, 7, 9, 8, 10, 11, 13, 12, 14, 15, 20]

/-- Source `ConvertLandmarkCoordinatesToGlobalCoordinates` from post_model.ts:
un-letterbox via `CoordsOutsideBox`, then reverse the aspect-ratio-aware
rotation. -/
noncomputable def ConvertLandmarkCoordinatesToGlobalCoordinates (p : PreprocInfo)
    (aspectRatio : Vec2) (coords : List Vec2) : List Vec2 :=
  let araRot : AspectRatioAwareRotation :=
    ⟨p.rotationCenter, p.rotationInRadians, aspectRatio⟩
  araRot.ApplyReverse (CoordsOutsideBox (p.topLeft, p.bottomRight) coords)

/-- Source `AssembleTrackResultFromCoordinatesAndClasses` from post_model.ts.
JavaScript indexing `classes[i]` is modelled with `List.getD` (claims only
concern class lists with at least 4 entries, where the two agree). -/
def AssembleTrackResultFromCoordinatesAndClasses (coords : List Vec2)
    (classes : List ℚ) : TrackResult :=
  { coordinates := coords
    poses :=
      { pinchProb := classes.getD 0 0
        fistProb := classes.getD 1 0 }
    isLeftHandProb := classes.getD 3 0
    -- The hand-presence class predicts *absence*, hence the inversion.
    isHandPresentProb := 1 - classes.getD 2 0 }

/-- Source `MirrorCoordinatesHorizontally` from post_model.ts. -/
def MirrorCoordinatesHorizontally (coords : List Vec2) : List Vec2 :=
  FlipCoordsHorizontally coords

/-- Source `ApplyPaddingToCoordinates` from post_model.ts. -/
noncomputable def ApplyPaddingToCoordinates (padding : ℝ) (coords : List Vec2) : List Vec2 :=
  let d := padding
  let topLeft : Vec2 := (d, d)
  let bottomRight : Vec2 := (1 - d, 1 - d)
  CoordsInsideBox (topLeft, bottomRight) coords

/-- Source `MakeCoordinateOrderUserFriendly` from post_model.ts: push
`coords[i]` for each `i` in the fixed order table. -/
def MakeCoordinateOrderUserFriendly (coords : List Vec2) : List Vec2 :=
  USER_FRIENDLY_COORD_ORDER.map fun i => coords.getD i (0, 0)

/-! ### core/engine/base.ts (configuration handling) -/

/-- Source `IEngineConfig` with every field present (the shape of
`DEFAULT_CONFIG` and of a merged configuration). -/
structure EngineConfig where
  mirrorX : Bool
  padding : ℚ
  minHandPresenceProbabilityThreshold : ℚ
  __userFriendlyCoordinateOrder : Bool
  __boxSlack : ℚ
  deriving DecidableEq

/-- Source `DEFAULT_CONFIG` from engine/base.ts. -/
def DEFAULT_CONFIG : EngineConfig :=
  { mirrorX := true
    padding := 0
    minHandPresenceProbabilityThreshold := 1/2
    __userFriendlyCoordinateOrder := true
    __boxSlack := 3/4 }

/-- A caller-supplied `IEngineConfig`: every field optional.  A `none`
field models a key that is absent from the JavaScript object (`key in
trgConfig` is false). -/
structure PartialEngineConfig where
  mirrorX : Option Bool
  padding : Option ℚ
  minHandPresenceProbabilityThreshold : Option ℚ
  __userFriendlyCoordinateOrder : Option Bool
  __boxSlack : Option ℚ
  deriving DecidableEq

/-- The keys of `DEFAULT_CONFIG`, in `Object.keys` declaration order. -/
inductive ConfigKey where
  | mirrorX
  | padding
  | minHandPresenceProbabilityThreshold
  | userFriendlyCoordinateOrder
  | boxSlack
  deriving DecidableEq

/-- Whether the caller omitted a key (the JavaScript `key in trgConfig`
test fails). -/
def PartialEngineConfig.keyOmitted (c : PartialEngineConfig) : ConfigKey → Prop
  | .mirrorX => c.mirrorX = none
  | .padding => c.padding = none
  | .minHandPresenceProbabilityThreshold =>
      c.minHandPresenceProbabilityThreshold = none
  | .userFriendlyCoordinateOrder => c.__userFriendlyCoordinateOrder = none
  | .boxSlack => c.__boxSlack = none

/-- Source `ApplyConfigDefaults` from engine/base.ts, unrolled over the keys of
`DEFAULT_CONFIG` in `Object.keys` order.  For a key present in the target
the source recurses into the two field values; both are primitives
(`typeof ≠ 'object'`), so that recursive call returns without doing
anything and the caller's value survives.  For an absent key the source
executes `trgConfig[key] = srcConfig[key]`.  The function mutates
`trgConfig` in place; the model returns the post-call state of the
caller's object together with the list of keys that were written to. -/
def ApplyConfigDefaults (srcConfig : EngineConfig) (trgConfig : PartialEngineConfig) :
    PartialEngineConfig × List ConfigKey :=
  let step0 : Option Bool × List ConfigKey :=
    match trgConfig.mirrorX with
    | some v => (some v, [])
    | none => (some srcConfig.mirrorX, [ConfigKey.mirrorX])
  let step1 : Option ℚ × List ConfigKey :=
    match trgConfig.padding with
    | some v => (some v, [])
    | none => (some srcConfig.padding, [ConfigKey.padding])
  let step2 : Option ℚ × List ConfigKey :=
    match trgConfig.minHandPresenceProbabilityThreshold with
    | some v => (some v, [])
    | none => (some srcConfig.minHandPresenceProbabilityThreshold,
               [ConfigKey.minHandPresenceProbabilityThreshold])
  let step3 : Option Bool × List ConfigKey :=
    match trgConfig.__userFriendlyCoordinateOrder with
    | some v => (some v, [])
    | none => (some srcConfig.__userFriendlyCoordinateOrder,
               [ConfigKey.userFriendlyCoordinateOrder])
  let step4 : Option ℚ × List ConfigKey :=
    match trgConfig.__boxSlack with
    | some v => (some v, [])
    | none => (some srcConfig.__boxSlack, [ConfigKey.boxSlack])
  ({ mirrorX := step0.1
     padding := step1.1
     minHandPresenceProbabilityThreshold := step2.1
     __userFriendlyCoordinateOrder := step3.1
     __boxSlack := step4.1 },
   step0.2 ++ step1.2 ++ step2.2 ++ step3.2 ++ step4.2)

/-! ### core/engine/base.ts (tracking loop) -/

/-- Source `BOX_PREPROC_INFO` from engine/base.ts: the identity full-frame
transform descriptor used whenever the box model must reacquire the hand. -/
noncomputable def BOX_PREPROC_INFO : PreprocInfo :=
  { topLeft := (0, 0)
    bottomRight := (1, 1)
    flip := false
    rotationCenter := (1/2, 1/2)
    rotationInRadians := 0 }

/-- Source `IModelResult` from model/base.ts.  Coordinates are geometric (`ℝ`);
classifier probabilities only undergo comparisons and field arithmetic and
are modelled in `ℚ`. -/
structure ModelResult where
  coordinates : List Vec2
  classes : List ℚ

/-- A record of one model invocation performed by the loop, tagged with
the transform descriptor that was used to preprocess the frame for it
(`preprocCb(trackSource, info)` immediately precedes each model call). -/
inductive ModelInvocation where
  | box (info : PreprocInfo)
  | lan (info : PreprocInfo)

/-- What one iteration of the `while` loop of `StartEngine` produces: the
model invocations it performs in order, the emitted result, and the value
of the `preprocInfo` loop variable at the end of the iteration. -/
structure TickOutput where
  trace : List ModelInvocation
  result : TrackResult
  nextInfo : Option PreprocInfo

/-- Source `ApplyPostProcessingToCoordinates` from engine/base.ts.  JavaScript
truthiness of `config.padding` is `padding ≠ 0`. -/
noncomputable def ApplyPostProcessingToCoordinates (config : EngineConfig)
    (coords : List Vec2) : List Vec2 :=
  let coords1 := if config.padding ≠ 0 then
    ApplyPaddingToCoordinates (config.padding : ℝ) coords else coords
  let coords2 := if config.mirrorX then
    MirrorCoordinatesHorizontally coords1 else coords1
  if config.__userFriendlyCoordinateOrder then
    MakeCoordinateOrderUserFriendly coords2 else coords2

/-- The landmark half of one loop iteration of `StartEngine` (lines
131–153 of engine/base.ts): run the landmark model on the frame
preprocessed with `preprocInfo`, convert its coordinates to global space,
derive the next transform from them, post-process, assemble and emit the
result, and discard the stored transform when the emitted hand-presence
probability falls below the threshold.  The frame source is fixed for the
session, so `preprocCb` composed with the landmark model is modelled as
one function from transform descriptors to model results. -/
noncomputable def LanPhase (config : EngineConfig) (aspectRatio : Vec2)
    (lanModel : PreprocInfo → ModelResult) (preprocInfo : PreprocInfo) :
    TrackResult × Option PreprocInfo :=
  let lanRes := lanModel preprocInfo
  let classes := lanRes.classes
  let coords := ConvertLandmarkCoordinatesToGlobalCoordinates preprocInfo
    aspectRatio lanRes.coordinates
  let nextPreprocInfo := ComputePreprocInfoFromLanCoords coords aspectRatio
    (config.__boxSlack : ℝ)
  let coords2 := ApplyPostProcessingToCoordinates config coords
  let result := AssembleTrackResultFromCoordinatesAndClasses coords2 classes
  (result,
   if result.isHandPresentProb < config.minHandPresenceProbabilityThreshold then
     none
   else some nextPreprocInfo)

/-- One iteration of the `while (!stopped)` loop of `StartEngine`
(engine/base.ts lines 119–154), as a function of the `preprocInfo` loop
variable: when it is `null` the box model runs first on the identity
full-frame descriptor and the landmark transform is derived from its
output (propagating the `ComputePreprocInfoFromBoxCoords` error, which in
the source is an uncaught throw); then the landmark phase runs.  The trace
lists the model invocations of the iteration in order. -/
noncomputable def EngineTick (config : EngineConfig) (aspectRatio : Vec2)
    (boxModel lanModel : PreprocInfo → ModelResult) :
    Option PreprocInfo → Except String TickOutput
  | none =>
    let boxRes := boxModel BOX_PREPROC_INFO
    match ComputePreprocInfoFromBoxCoords boxRes.coordinates aspectRatio
        (config.__boxSlack : ℝ) with
    | Except.error e => Except.error e
    | Except.ok preprocInfo =>
      let phase := LanPhase config aspectRatio lanModel preprocInfo
      Except.ok
        ⟨[ModelInvocation.box BOX_PREPROC_INFO, ModelInvocation.lan preprocInfo],
         phase.1, phase.2⟩
  | some preprocInfo =>
    let phase := LanPhase config aspectRatio lanModel preprocInfo
    Except.ok ⟨[ModelInvocation.lan preprocInfo], phase.1, phase.2⟩

/-- The transform descriptor a tracking tick derives from its landmark
output when the landmark model was invoked with descriptor `p` (the value
assigned to `preprocInfo` on line 141–142 of engine/base.ts). -/
noncomputable def LanDerivedInfo (config : EngineConfig) (aspectRatio : Vec2)
    (lanModel : PreprocInfo → ModelResult) (p : PreprocInfo) : PreprocInfo :=
  ComputePreprocInfoFromLanCoords
    (ConvertLandmarkCoordinatesToGlobalCoordinates p aspectRatio
      (lanModel p).coordinates)
    aspectRatio (config.__boxSlack : ℝ)

/-- Landmark-model stub for the presence-loss scenario: `classes =
[0, 0, 1, 0]` (inverse-presence 1, so presence 0). -/
noncomputable def WitnessLanModel : PreprocInfo → ModelResult :=
  fun _ => ⟨List.replicate 21 ((1/2 : ℝ), (1/2 : ℝ)), [0, 0, 1, 0]⟩

/-- Box-model stub returning the six fixed points of the spec's
reacquisition scenario. -/
noncomputable def WitnessBoxModel : PreprocInfo → ModelResult :=
  fun _ => ⟨[(1/2, 3/5), (1/2, 2/5), (3/10, 3/10), (7/10, 3/10),
             (3/10, 7/10), (7/10, 7/10)], []⟩

/-- The output of the scenario tick used as the C2 witness. -/
noncomputable def WitnessTickOutput : TickOutput :=
  ⟨[ModelInvocation.lan BOX_PREPROC_INFO],
   (LanPhase DEFAULT_CONFIG (1, 1) WitnessLanModel BOX_PREPROC_INFO).1,
   (LanPhase DEFAULT_CONFIG (1, 1) WitnessLanModel BOX_PREPROC_INFO).2⟩

/-! ### util/math_helper.ts (multi-download progress aggregation) -/

/-- One invocation of a per-stream progress callback: the stream index and
the `received` value `r` it reports.  Each stream's `total` is fixed
across its invocations (the `IDownloadProgressCb` contract), so it is
modelled as a function of the stream index rather than part of the event. -/
abbrev StreamEvent (n : ℕ) : Type := Fin n × ℚ

/-- The closure state of `CreateProgressCbCreationCbForMultipleDownloads`:
the shared `totalReceived`/`totalSize` accumulators, and for each stream
the `first`/`prev` variables of its per-stream callback. -/
structure DownloadProgressState (n : ℕ) where
  totalReceived : ℚ
  totalSize : ℚ
  first : Fin n → Bool
  prev : Fin n → ℚ

/-- The state right after `CreateProgressCbCreationCbForMultipleDownloads`
ran and each per-stream callback was created: `totalReceived = 0`,
`totalSize = 0`, every stream has `first = true`, `prev = 0`. -/
def DownloadProgressInit (n : ℕ) : DownloadProgressState n :=
  { totalReceived := 0
    totalSize := 0
    first := fun _ => true
    prev := fun _ => 0 }

/-- One invocation `(r, t)` of stream `e.1`'s callback, exactly as in the
source: `totalReceived -= prev; totalReceived += r; prev = r; if (first)
{ totalSize += t; first = false; }`. -/
def ProgressStep {n : ℕ} (t : Fin n → ℚ) (st : DownloadProgressState n)
    (e : StreamEvent n) : DownloadProgressState n :=
  let i := e.1
  let r := e.2
  let totalReceived := st.totalReceived - st.prev i + r
  let prev := Function.update st.prev i r
  if st.first i then
    { totalReceived := totalReceived
      totalSize := st.totalSize + t i
      first := Function.update st.first i false
      prev := prev }
  else
    { totalReceived := totalReceived
      totalSize := st.totalSize
      first := st.first
      prev := prev }

/-- The closure state after an interleaving of per-stream callback
invocations. -/
def ProgressRun {n : ℕ} (t : Fin n → ℚ) (trace : List (StreamEvent n)) :
    DownloadProgressState n :=
  trace.foldl (ProgressStep t) (DownloadProgressInit n)

/-- The `(received, total)` pairs passed to `combinedProgressCb`, one per
event, starting from state `st`. -/
def ProgressEmitsFrom {n : ℕ} (t : Fin n → ℚ) (st : DownloadProgressState n) :
    List (StreamEvent n) → List (ℚ × ℚ)
  | [] => []
  | e :: es =>
    let st2 := ProgressStep t st e
    (st2.totalReceived, st2.totalSize) :: ProgressEmitsFrom t st2 es

/-- The `(received, total)` pairs passed to `combinedProgressCb` over a
whole interleaving. -/
def ProgressEmits {n : ℕ} (t : Fin n → ℚ) (trace : List (StreamEvent n)) :
    List (ℚ × ℚ) :=
  ProgressEmitsFrom t (DownloadProgressInit n) trace

/-- The `received` values reported by stream `i`, in order. -/
def StreamReports {n : ℕ} (trace : List (StreamEvent n)) (i : Fin n) : List ℚ :=
  (trace.filter (fun e => e.1 == i)).map Prod.snd

/-- The latest `received` value stream `i` has reported (0 if none). -/
def LastReport {n : ℕ} (trace : List (StreamEvent n)) (i : Fin n) : ℚ :=
  ((StreamReports trace i).getLast?).getD 0

/-- Whether stream `i` has reported at least once. -/
def HasReported {n : ℕ} (trace : List (StreamEvent n)) (i : Fin n) : Bool :=
  trace.any (fun e => e.1 == i)

/-- Stream totals for the C7 witness scenario. -/
def WitnessStreamTotals : Fin 2 → ℚ :=
  fun i => if i = 0 then 10 else 20

/-- Interleaved per-stream reports for the C7 witness scenario. -/
def WitnessStreamTrace : List (StreamEvent 2) :=
  [(0, 5), (1, 4), (0, 7)]

/-! ### Specification-side predicates and helpers -/

/-- Point `m` is the first-occurrence minimiser of `f` on `l`: it occurs at an
index `i`, every strictly earlier element is strictly worse (this is the
strict-`<` tie-break: an equal later element never replaces an earlier
one), and no element beats it. -/
def IsFirstMinOn (f : Vec2 → ℝ) (l : List Vec2) (m : Vec2) : Prop :=
  ∃ i, ∃ hi : i < l.length, l[i] = m ∧
    (∀ j, ∀ hj : j < l.length, j < i → f m < f l[j]) ∧
    ∀ p ∈ l, f m ≤ f p

/-- Point `m` is the first-occurrence maximiser of `f` on `l` (strict-`>`
tie-break). -/
def IsFirstMaxOn (f : Vec2 → ℝ) (l : List Vec2) (m : Vec2) : Prop :=
  ∃ i, ∃ hi : i < l.length, l[i] = m ∧
    (∀ j, ∀ hj : j < l.length, j < i → f l[j] < f m) ∧
    ∀ p ∈ l, f p ≤ f m

/-- The scalar fold `if f b < f a then b else a` threaded over `rest`
starting from `c`; this is what a single slot of
`ComputeExtremumCoords`'s loop computes for a minimum slot. -/
noncomputable def FirstMinFold (f : Vec2 → ℝ) (c : Vec2) (rest : List Vec2) : Vec2 :=
  rest.foldl (fun a b => if f b < f a then b else a) c

/-- The scalar fold for a maximum slot (`if f b > f a then b else a`). -/
noncomputable def FirstMaxFold (f : Vec2 → ℝ) (c : Vec2) (rest : List Vec2) : Vec2 :=
  rest.foldl (fun a b => if f a < f b then b else a) c

/-- Application of an arbitrary reorder table, generalizing
`MakeCoordinateOrderUserFriendly` (which is exactly this applied to
`USER_FRIENDLY_COORD_ORDER`). -/
def ApplyCoordReorderTable (table : List ℕ) (coords : List Vec2) : List Vec2 :=
  table.map fun i => coords.getD i (0, 0)

/-- The inverse permutation table of `USER_FRIENDLY_COORD_ORDER`:
entry `v` is the position at which `v` occurs in the forward table. -/
def USER_FRIENDLY_COORD_ORDER_INVERSE : List ℕ :=
  [5, 4, 6, 7, 9, 8, 10, 11, 13, 12, 14, 15, 17, 16, 18, 19, 1, 0, 2, 3, 20]

/-- The specification's formulation of the landmark-to-transform
computation (spec §4.2, `ComputeTransformFromLandmarkOutput`): use
landmark 20 and landmark 5 as the two rotation reference points, rotate
all 21 points into the canonical frame, take the axis-aligned bounding box
of all rotated points (minimum/maximum of the x and y coordinates), and
expand the box on each side by `slack` times the maximum of the fixed set
of six pairwise distances among wrist and finger-base landmarks —
(20,16), (20,1), (20,5), (20,9), (20,13), (13,1) — measured in absolute
pixel coordinates and converted back to relative units per axis
independently. -/
noncomputable def ComputeTransformFromLandmarkOutputSpec (coords : List Vec2)
    (ar : Vec2) (slack : ℝ) : PreprocInfo :=
  let palmBottom := coords.getD 20 (0, 0)
  let palmTop := coords.getD 5 (0, 0)
  let rotationCenter := DivideVectors (AddVectors palmBottom palmTop) (2, 2)
  let rotationInRadians := SixPointRotationInRadians palmBottom palmTop ar
  let araRot : AspectRatioAwareRotation := ⟨rotationCenter, rotationInRadians, ar⟩
  let rotated := araRot.Apply coords
  let minX := ((rotated.map Prod.fst).min?).getD 0
  let maxX := ((rotated.map Prod.fst).max?).getD 0
  let minY := ((rotated.map Prod.snd).min?).getD 0
  let maxY := ((rotated.map Prod.snd).max?).getD 0
  let absCoords := MakeCoordsAbsolute coords ar.1 ar.2
  let maxDistance :=
    max (max (max (max
      (max (ComputeDistanceBetweenVectors (absCoords.getD 20 (0, 0))
              (absCoords.getD 16 (0, 0)))
           (ComputeDistanceBetweenVectors (absCoords.getD 20 (0, 0))
              (absCoords.getD 1 (0, 0))))
      (ComputeDistanceBetweenVectors (absCoords.getD 20 (0, 0))
        (absCoords.getD 5 (0, 0))))
      (ComputeDistanceBetweenVectors (absCoords.getD 20 (0, 0))
        (absCoords.getD 9 (0, 0))))
      (ComputeDistanceBetweenVectors (absCoords.getD 20 (0, 0))
        (absCoords.getD 13 (0, 0))))
      (ComputeDistanceBetweenVectors (absCoords.getD 13 (0, 0))
        (absCoords.getD 1 (0, 0)))
  let slackPx := slack * maxDistance
  { rotationCenter := rotationCenter
    rotationInRadians := rotationInRadians
    topLeft := (minX - slackPx / ar.1, minY - slackPx / ar.2)
    bottomRight := (maxX + slackPx / ar.1, maxY + slackPx / ar.2)
    flip := false }

/-- The conceptual forward map from frame-global coordinates to model-local
coordinates, per the spec: apply the aspect-ratio-aware rotation, then map
into the crop box (the exact inverse of `CoordsOutsideBox`, which is
`CoordsInsideBox` on the same box).  This is the map the frame
preprocessor realizes on pixels; `ConvertLandmarkCoordinatesToGlobalCoordinates`
must invert it. -/
noncomputable def ToModelLocal (p : PreprocInfo) (aspectRatio : Vec2)
    (coords : List Vec2) : List Vec2 :=
  let araRot : AspectRatioAwareRotation :=
    ⟨p.rotationCenter, p.rotationInRadians, aspectRatio⟩
  CoordsInsideBox (p.topLeft, p.bottomRight) (araRot.Apply coords)

end Yoha

/-! ## Claim theorems -/

namespace Yoha

/-- Claim C1. For every coordinate list `coords` and every classes list with at
least 4 entries `p0 :: p1 :: p2 :: p3 :: rest`,
`AssembleTrackResultFromCoordinatesAndClasses coords classes` returns a
result whose `coordinates` field is `coords` unchanged and whose
probability fields follow the fixed index contract:
`poses.pinchProb = p0`, `poses.fistProb = p1`,
`isHandPresentProb = 1 - p2` (presence is encoded as absence probability
and inverted), and `isLeftHandProb = p3`. -/
theorem assemble_track_result_index_contract (coords : List Vec2)
    (p0 p1 p2 p3 : ℚ) (rest : List ℚ) :
    (AssembleTrackResultFromCoordinatesAndClasses coords
        (p0 :: p1 :: p2 :: p3 :: rest)).coordinates = coords ∧
    (AssembleTrackResultFromCoordinatesAndClasses coords
        (p0 :: p1 :: p2 :: p3 :: rest)).poses.pinchProb = p0 ∧
    (AssembleTrackResultFromCoordinatesAndClasses coords
        (p0 :: p1 :: p2 :: p3 :: rest)).poses.fistProb = p1 ∧
    (AssembleTrackResultFromCoordinatesAndClasses coords
        (p0 :: p1 :: p2 :: p3 :: rest)).isHandPresentProb = 1 - p2 ∧
    (AssembleTrackResultFromCoordinatesAndClasses coords
        (p0 :: p1 :: p2 :: p3 :: rest)).isLeftHandProb = p3 := by
  refine ⟨rfl, rfl, rfl, rfl, rfl⟩

/-- The four slots of the extremum fold are independent: the `minX` slot
computes exactly the scalar first-min fold on the x projection. -/
theorem foldl_extremumStep_minX (rest : List Vec2) (acc : ExtremumCoords) :
    (List.foldl ExtremumStep acc rest).minX =
      FirstMinFold (fun p => p.1) acc.minX rest := by
  induction rest generalizing acc with
  | nil => rfl
  | cons x xs ih =>
      simpa [FirstMinFold, ExtremumStep] using ih (ExtremumStep acc x)

/-- The `minY` slot computes the scalar first-min fold on the y projection. -/
theorem foldl_extremumStep_minY (rest : List Vec2) (acc : ExtremumCoords) :
    (List.foldl ExtremumStep acc rest).minY =
      FirstMinFold (fun p => p.2) acc.minY rest := by
  induction rest generalizing acc with
  | nil => rfl
  | cons x xs ih =>
      simpa [FirstMinFold, ExtremumStep] using ih (ExtremumStep acc x)

/-- The `maxX` slot computes the scalar first-max fold on the x projection. -/
theorem foldl_extremumStep_maxX (rest : List Vec2) (acc : ExtremumCoords) :
    (List.foldl ExtremumStep acc rest).maxX =
      FirstMaxFold (fun p => p.1) acc.maxX rest := by
  induction rest generalizing acc with
  | nil => rfl
  | cons x xs ih =>
      simpa [FirstMaxFold, ExtremumStep] using ih (ExtremumStep acc x)

/-- The `maxY` slot computes the scalar first-max fold on the y projection. -/
theorem foldl_extremumStep_maxY (rest : List Vec2) (acc : ExtremumCoords) :
    (List.foldl ExtremumStep acc rest).maxY =
      FirstMaxFold (fun p => p.2) acc.maxY rest := by
  induction rest generalizing acc with
  | nil => rfl
  | cons x xs ih =>
      simpa [FirstMaxFold, ExtremumStep] using ih (ExtremumStep acc x)

/-- Extending the scanned list by one element preserves the
first-occurrence-minimiser property, with the strict-compare update. -/
theorem isFirstMinOn_append_singleton (f : Vec2 → ℝ) (l : List Vec2) (m : Vec2)
    (h : IsFirstMinOn f l m) (b : Vec2) :
    IsFirstMinOn f (l ++ [b]) (if f b < f m then b else m) := by
  obtain ⟨i, hi, hget, hearlier, hopt⟩ := h
  by_cases hb : f b < f m
  · rw [if_pos hb]
    refine ⟨l.length, by simp, List.getElem_concat_length _ _ _ rfl _, ?_, ?_⟩
    · intro j hj hji
      have hj' : j < l.length := by simpa using hji
      rw [List.getElem_append_left hj']
      have hmem : l[j] ∈ l := List.getElem_mem _
      exact lt_of_lt_of_le hb (hopt _ hmem)
    · intro p hp
      rw [List.mem_append] at hp
      rcases hp with hp | hp
      · exact le_of_lt (lt_of_lt_of_le hb (hopt _ hp))
      · rw [List.mem_singleton] at hp
        subst hp
        exact le_refl _
  · rw [if_neg hb]
    have hi' : i < (l ++ [b]).length := by
      rw [List.length_append]
      omega
    refine ⟨i, hi', ?_, ?_, ?_⟩
    · rw [List.getElem_append_left hi]
      exact hget
    · intro j hj hji
      have hj' : j < l.length := by omega
      rw [List.getElem_append_left hj']
      exact hearlier j hj' hji
    · intro p hp
      rw [List.mem_append] at hp
      rcases hp with hp | hp
      · exact hopt _ hp
      · rw [List.mem_singleton] at hp
        subst hp
        exact not_lt.mp hb

/-- Extending the scanned list by one element preserves the
first-occurrence-maximiser property, with the strict-compare update. -/
theorem isFirstMaxOn_append_singleton (f : Vec2 → ℝ) (l : List Vec2) (m : Vec2)
    (h : IsFirstMaxOn f l m) (b : Vec2) :
    IsFirstMaxOn f (l ++ [b]) (if f m < f b then b else m) := by
  obtain ⟨i, hi, hget, hearlier, hopt⟩ := h
  by_cases hb : f m < f b
  · rw [if_pos hb]
    refine ⟨l.length, by simp, List.getElem_concat_length _ _ _ rfl _, ?_, ?_⟩
    · intro j hj hji
      have hj' : j < l.length := by simpa using hji
      rw [List.getElem_append_left hj']
      have hmem : l[j] ∈ l := List.getElem_mem _
      exact lt_of_le_of_lt (hopt _ hmem) hb
    · intro p hp
      rw [List.mem_append] at hp
      rcases hp with hp | hp
      · exact le_of_lt (lt_of_le_of_lt (hopt _ hp) hb)
      · rw [List.mem_singleton] at hp
        subst hp
        exact le_refl _
  · rw [if_neg hb]
    have hi' : i < (l ++ [b]).length := by
      rw [List.length_append]
      omega
    refine ⟨i, hi', ?_, ?_, ?_⟩
    · rw [List.getElem_append_left hi]
      exact hget
    · intro j hj hji
      have hj' : j < l.length := by omega
      rw [List.getElem_append_left hj']
      exact hearlier j hj' hji
    · intro p hp
      rw [List.mem_append] at hp
      rcases hp with hp | hp
      · exact hopt _ hp
      · rw [List.mem_singleton] at hp
        subst hp
        exact not_lt.mp hb

/-- The strict-compare min fold returns the first-occurrence minimiser. -/
theorem firstMinFold_isFirstMinOn (f : Vec2 → ℝ) (c : Vec2) (rest : List Vec2) :
    IsFirstMinOn f (c :: rest) (FirstMinFold f c rest) := by
  induction rest using List.reverseRecOn with
  | nil =>
      refine ⟨0, by simp, rfl, ?_, ?_⟩
      · intro j hj hji; omega
      · intro p hp
        rw [List.mem_singleton] at hp
        subst hp
        exact le_refl _
  | append_singleton xs b ih =>
      have hfold : FirstMinFold f c (xs ++ [b]) =
          if f b < f (FirstMinFold f c xs) then b else FirstMinFold f c xs := by
        simp [FirstMinFold, List.foldl_append]
      have hcons : c :: (xs ++ [b]) = (c :: xs) ++ [b] := by simp
      rw [hfold, hcons]
      exact isFirstMinOn_append_singleton f (c :: xs) _ ih b

/-- The strict-compare max fold returns the first-occurrence maximiser. -/
theorem firstMaxFold_isFirstMaxOn (f : Vec2 → ℝ) (c : Vec2) (rest : List Vec2) :
    IsFirstMaxOn f (c :: rest) (FirstMaxFold f c rest) := by
  induction rest using List.reverseRecOn with
  | nil =>
      refine ⟨0, by simp, rfl, ?_, ?_⟩
      · intro j hj hji; omega
      · intro p hp
        rw [List.mem_singleton] at hp
        subst hp
        exact le_refl _
  | append_singleton xs b ih =>
      have hfold : FirstMaxFold f c (xs ++ [b]) =
          if f (FirstMaxFold f c xs) < f b then b else FirstMaxFold f c xs := by
        simp [FirstMaxFold, List.foldl_append]
      have hcons : c :: (xs ++ [b]) = (c :: xs) ++ [b] := by simp
      rw [hfold, hcons]
      exact isFirstMaxOn_append_singleton f (c :: xs) _ ih b

/-- Claim C8. `ComputeExtremumCoords`, applied to any non-empty coordinate
list, returns the four points achieving minimum x, maximum x, minimum y
and maximum y, with ties broken by first occurrence (comparisons are
strict, so an equal later point never replaces an earlier one); in
particular `ComputeExtremumCoords [[0,0],[0,0]]` returns the first element
for all four extrema. -/
theorem compute_extremum_coords_first_occurrence (c : Vec2) (rest : List Vec2) :
    (∃ e, ComputeExtremumCoords (c :: rest) = some e ∧
      IsFirstMinOn (fun p => p.1) (c :: rest) e.minX ∧
      IsFirstMaxOn (fun p => p.1) (c :: rest) e.maxX ∧
      IsFirstMinOn (fun p => p.2) (c :: rest) e.minY ∧
      IsFirstMaxOn (fun p => p.2) (c :: rest) e.maxY) ∧
    ComputeExtremumCoords [((0 : ℝ), (0 : ℝ)), ((0 : ℝ), (0 : ℝ))] =
      some ⟨((0 : ℝ), (0 : ℝ)), ((0 : ℝ), (0 : ℝ)),
            ((0 : ℝ), (0 : ℝ)), ((0 : ℝ), (0 : ℝ))⟩ := by
  constructor
  · refine ⟨List.foldl ExtremumStep ⟨c, c, c, c⟩ rest, rfl, ?_, ?_, ?_, ?_⟩
    · rw [foldl_extremumStep_minX]
      exact firstMinFold_isFirstMinOn _ c rest
    · rw [foldl_extremumStep_maxX]
      exact firstMaxFold_isFirstMaxOn _ c rest
    · rw [foldl_extremumStep_minY]
      exact firstMinFold_isFirstMinOn _ c rest
    · rw [foldl_extremumStep_maxY]
      exact firstMaxFold_isFirstMaxOn _ c rest
  · simp [ComputeExtremumCoords, ExtremumStep]

/-- Reading a list back out of itself by index recovers the list. -/
theorem map_getD_range (l : List Vec2) :
    (List.range l.length).map (fun i => l.getD i (0, 0)) = l := by
  apply List.ext_getElem
  · simp
  · intro i h1 h2
    simp only [List.getElem_map, List.getElem_range]
    exact List.getD_eq_getElem l (0, 0) h2

/-- Claim C9. The user-friendly reordering is a bijection on positions: the
fixed reorder table is a permutation of the indices `0..20`, so
`MakeCoordinateOrderUserFriendly` applied to any 21-element array permutes
it without dropping or duplicating entries, and applying the inverse
permutation table afterwards recovers the original array. -/
theorem user_friendly_reorder_bijection :
    USER_FRIENDLY_COORD_ORDER.Perm (List.range 21) ∧
    ∀ coords : List Vec2, coords.length = 21 →
      (MakeCoordinateOrderUserFriendly coords).Perm coords ∧
      ApplyCoordReorderTable USER_FRIENDLY_COORD_ORDER_INVERSE
        (MakeCoordinateOrderUserFriendly coords) = coords := by
  have hperm : USER_FRIENDLY_COORD_ORDER.Perm (List.range 21) := by decide
  refine ⟨hperm, ?_⟩
  intro coords hlen
  have hmake : MakeCoordinateOrderUserFriendly coords =
      USER_FRIENDLY_COORD_ORDER.map (fun i => coords.getD i (0, 0)) := rfl
  constructor
  · rw [hmake]
    have h1 : (USER_FRIENDLY_COORD_ORDER.map (fun i => coords.getD i (0, 0))).Perm
        ((List.range 21).map (fun i => coords.getD i (0, 0))) :=
      hperm.map _
    have h2 : (List.range 21).map (fun i => coords.getD i (0, 0)) = coords := by
      rw [← hlen]
      exact map_getD_range coords
    rwa [h2] at h1
  · -- Index-wise computation via the two decidable facts about the tables.
    have hinvlt : ∀ k, k < 21 →
        USER_FRIENDLY_COORD_ORDER_INVERSE.getD k 0 < 21 := by decide
    have hcomp : ∀ k, k < 21 →
        USER_FRIENDLY_COORD_ORDER.getD
          (USER_FRIENDLY_COORD_ORDER_INVERSE.getD k 0) 0 = k := by decide
    apply List.ext_getElem
    · simp [ApplyCoordReorderTable, MakeCoordinateOrderUserFriendly,
        USER_FRIENDLY_COORD_ORDER_INVERSE, USER_FRIENDLY_COORD_ORDER, hlen]
    · intro k h1 h2
      have hk21 : k < 21 := by
        simpa [ApplyCoordReorderTable, USER_FRIENDLY_COORD_ORDER_INVERSE] using h1
      have hlen0 : USER_FRIENDLY_COORD_ORDER_INVERSE.length = 21 := by decide
      have hlenF : USER_FRIENDLY_COORD_ORDER.length = 21 := by decide
      have hk' : k < USER_FRIENDLY_COORD_ORDER_INVERSE.length := by omega
      have hmlen : (MakeCoordinateOrderUserFriendly coords).length = 21 := by
        simp [MakeCoordinateOrderUserFriendly, USER_FRIENDLY_COORD_ORDER]
      -- Unfold the outer map.
      show (USER_FRIENDLY_COORD_ORDER_INVERSE.map
        (fun i => (MakeCoordinateOrderUserFriendly coords).getD i (0, 0)))[k] = coords[k]
      rw [List.getElem_map]
      set j := USER_FRIENDLY_COORD_ORDER_INVERSE[k] with hj
      have hjval : j = USER_FRIENDLY_COORD_ORDER_INVERSE.getD k 0 := by
        rw [hj]
        exact (List.getD_eq_getElem _ 0 hk').symm
      have hj21 : j < 21 := by
        rw [hjval]
        exact hinvlt k hk21
      have hjm : j < (MakeCoordinateOrderUserFriendly coords).length := by omega
      rw [List.getD_eq_getElem _ (0, 0) hjm]
      have hjF : j < USER_FRIENDLY_COORD_ORDER.length := by omega
      show (USER_FRIENDLY_COORD_ORDER.map (fun i => coords.getD i (0, 0)))[j] = coords[k]
      rw [List.getElem_map]
      have horder : USER_FRIENDLY_COORD_ORDER[j] = k := by
        rw [← List.getD_eq_getElem USER_FRIENDLY_COORD_ORDER 0 hjF, hjval]
        exact hcomp k hk21
      rw [horder]
      exact List.getD_eq_getElem coords (0, 0) h2

/-- Witness for C9 at the concrete labelled 21-point array. -/
theorem user_friendly_reorder_bijection_witness :
    ((List.range 21).map (fun n : ℕ => ((n : ℝ), (0 : ℝ)))).length = 21 ∧
    ApplyCoordReorderTable USER_FRIENDLY_COORD_ORDER_INVERSE
        (MakeCoordinateOrderUserFriendly
          ((List.range 21).map (fun n : ℕ => ((n : ℝ), (0 : ℝ))))) =
      (List.range 21).map (fun n : ℕ => ((n : ℝ), (0 : ℝ))) :=
  ⟨by rw [List.length_map, List.length_range],
   (user_friendly_reorder_bijection.2 _ (by rw [List.length_map, List.length_range])).2⟩

/-- Claim C4. `ComputePreprocInfoFromBoxCoords` raises an error if and only
if the input coordinate list's length differs from 6: for a list of length
≠ 6 it fails with the invalid-input error before doing any computation,
and for a list of exactly 6 two-dimensional points it returns a transform
descriptor without raising. -/
theorem box_preproc_error_iff_not_six (coords : List Vec2) (ar : Vec2) (slack : ℝ) :
    ((∃ p, ComputePreprocInfoFromBoxCoords coords ar slack = Except.ok p) ↔
      coords.length = 6) ∧
    (ComputePreprocInfoFromBoxCoords coords ar slack =
        Except.error "wrong num coords" ↔
      coords.length ≠ 6) := by
  by_cases h : coords.length = 6
  · constructor
    · simp only [ComputePreprocInfoFromBoxCoords, h]
      simp
    · simp only [ComputePreprocInfoFromBoxCoords, h]
      simp
  · constructor
    · simp only [ComputePreprocInfoFromBoxCoords, if_pos h]
      simp [h]
    · simp [ComputePreprocInfoFromBoxCoords, h]

/-- Claim C5. Config merge fills every field absent in the caller-supplied
configuration from the defaults and never overwrites a caller-supplied
value: the merged configuration agrees with the caller's object on every
key the caller supplied and with `DEFAULT_CONFIG` on every key the caller
omitted (each field equals `some (supplied value, or default if omitted)`,
which is exactly that case split); in particular, supplying only
`{padding: 0.1}` yields a merged config with `mirrorX = true`,
`minHandPresenceProbabilityThreshold = 0.5` and `padding = 0.1`. -/
theorem config_merge_fills_gaps_only (c : PartialEngineConfig) :
    ((ApplyConfigDefaults DEFAULT_CONFIG c).1.mirrorX =
        some (c.mirrorX.getD DEFAULT_CONFIG.mirrorX) ∧
      (ApplyConfigDefaults DEFAULT_CONFIG c).1.padding =
        some (c.padding.getD DEFAULT_CONFIG.padding) ∧
      (ApplyConfigDefaults DEFAULT_CONFIG c).1.minHandPresenceProbabilityThreshold =
        some (c.minHandPresenceProbabilityThreshold.getD
          DEFAULT_CONFIG.minHandPresenceProbabilityThreshold) ∧
      (ApplyConfigDefaults DEFAULT_CONFIG c).1.__userFriendlyCoordinateOrder =
        some (c.__userFriendlyCoordinateOrder.getD
          DEFAULT_CONFIG.__userFriendlyCoordinateOrder) ∧
      (ApplyConfigDefaults DEFAULT_CONFIG c).1.__boxSlack =
        some (c.__boxSlack.getD DEFAULT_CONFIG.__boxSlack)) ∧
    (ApplyConfigDefaults DEFAULT_CONFIG
        ⟨none, some (1/10), none, none, none⟩).1 =
      ⟨some true, some (1/10), some (1/2), some true, some (3/4)⟩ := by
  obtain ⟨f0, f1, f2, f3, f4⟩ := c
  refine ⟨?_, by simp [ApplyConfigDefaults, DEFAULT_CONFIG]⟩
  cases f0 <;> cases f1 <;> cases f2 <;> cases f3 <;> cases f4 <;>
    simp [ApplyConfigDefaults, DEFAULT_CONFIG]

/-- Claim C10. The merge performed by `StartEngine` works on the
caller-supplied configuration object itself (the model returns the
post-call state of that object): after the defaults are applied the
caller's object contains the default value for every field it was missing,
every field the caller supplied is left unchanged, and the set of keys
written to is exactly the set of omitted keys — no field the caller
supplied is ever written to. -/
theorem config_defaults_mutate_in_place (c : PartialEngineConfig) :
    ((ApplyConfigDefaults DEFAULT_CONFIG c).1.mirrorX =
        some (c.mirrorX.getD DEFAULT_CONFIG.mirrorX) ∧
      (ApplyConfigDefaults DEFAULT_CONFIG c).1.padding =
        some (c.padding.getD DEFAULT_CONFIG.padding) ∧
      (ApplyConfigDefaults DEFAULT_CONFIG c).1.minHandPresenceProbabilityThreshold =
        some (c.minHandPresenceProbabilityThreshold.getD
          DEFAULT_CONFIG.minHandPresenceProbabilityThreshold) ∧
      (ApplyConfigDefaults DEFAULT_CONFIG c).1.__userFriendlyCoordinateOrder =
        some (c.__userFriendlyCoordinateOrder.getD
          DEFAULT_CONFIG.__userFriendlyCoordinateOrder) ∧
      (ApplyConfigDefaults DEFAULT_CONFIG c).1.__boxSlack =
        some (c.__boxSlack.getD DEFAULT_CONFIG.__boxSlack)) ∧
    ∀ k : ConfigKey,
      k ∈ (ApplyConfigDefaults DEFAULT_CONFIG c).2 ↔ c.keyOmitted k := by
  obtain ⟨f0, f1, f2, f3, f4⟩ := c
  constructor
  · cases f0 <;> cases f1 <;> cases f2 <;> cases f3 <;> cases f4 <;>
      simp [ApplyConfigDefaults, DEFAULT_CONFIG]
  · intro k
    cases k <;>
      cases f0 <;> cases f1 <;> cases f2 <;> cases f3 <;> cases f4 <;>
        simp [ApplyConfigDefaults, DEFAULT_CONFIG, PartialEngineConfig.keyOmitted]

/-- A list map whose function fixes every element of the list is the
identity on that list. -/
theorem list_map_of_fixes {α : Type} (f : α → α) (l : List α)
    (h : ∀ c ∈ l, f c = c) : l.map f = l := by
  induction l with
  | nil => rfl
  | cons x xs ih =>
      rw [List.map_cons, h x (by simp), ih (fun c hc => h c (by simp [hc]))]

/-- Degree negation commutes with the degree-to-radian conversion. -/
theorem degreesToRadians_neg (d : ℝ) :
    DegreesToRadians (-d) = -(DegreesToRadians d) := by
  simp [DegreesToRadians]

/-- The rotation matrix about a center by `d` degrees undoes the one by
`-d` degrees (scale 1): composition of `Apply2DRotMatTo2DVec` is the
identity. -/
theorem rotmat_neg_inverse (center : Vec2) (d : ℝ) (w : Vec2) :
    Apply2DRotMatTo2DVec (ComputeRotationMatrix2D center d 1)
      (Apply2DRotMatTo2DVec (ComputeRotationMatrix2D center (-d) 1) w) = w := by
  have hcs := Real.sin_sq_add_cos_sq (DegreesToRadians d)
  simp only [ComputeRotationMatrix2D, Apply2DRotMatTo2DVec, degreesToRadians_neg,
    Real.cos_neg, Real.sin_neg]
  rw [Prod.ext_iff]
  constructor
  · simp only
    linear_combination (w.1 - center.1) * hcs
  · simp only
    linear_combination (w.2 - center.2) * hcs

/-- Lemma: `ApplyReverse` undoes `Apply` for the same rotation parameters,
provided the aspect ratio entries are nonzero (otherwise the x-rescale is
degenerate). -/
theorem applyReverse_apply (r : AspectRatioAwareRotation) (coords : List Vec2)
    (h1 : r.aspectRatio.1 ≠ 0) (h2 : r.aspectRatio.2 ≠ 0) :
    r.ApplyReverse (r.Apply coords) = coords := by
  have hm : r.maxX ≠ 0 := div_ne_zero h1 h2
  unfold AspectRatioAwareRotation.ApplyReverse AspectRatioAwareRotation.Apply
    AspectRatioAwareRotation.ApplyInternal Apply2DRotMatTo2DVecs
  simp only [if_true, if_false, Bool.false_eq_true, ite_false, ite_true,
    List.map_map]
  apply list_map_of_fixes
  intro c _
  simp only [Function.comp]
  have hmul_div : ∀ v : Vec2,
      MultiplyVectors (DivideVectors v (r.maxX, 1)) (r.maxX, 1) = v := by
    intro v
    simp [MultiplyVectors, DivideVectors, div_mul_cancel₀, hm]
  have hdiv_mul :
      DivideVectors (MultiplyVectors c (r.maxX, 1)) (r.maxX, 1) = c := by
    simp [MultiplyVectors, DivideVectors, mul_div_cancel_right₀, hm]
  rw [hmul_div]
  have hrot :
      Apply2DRotMatTo2DVec r.reverseRotMat
        (Apply2DRotMatTo2DVec r.rotMat (MultiplyVectors c (r.maxX, 1))) =
      MultiplyVectors c (r.maxX, 1) := by
    unfold AspectRatioAwareRotation.reverseRotMat AspectRatioAwareRotation.rotMat
    exact rotmat_neg_inverse _ _ _
  rw [hrot, hdiv_mul]

/-- Lemma: `CoordsOutsideBox` undoes `CoordsInsideBox` on the same box, provided
the box has nonzero width and height. -/
theorem coordsOutsideBox_coordsInsideBox (box : Vec2 × Vec2) (coords : List Vec2)
    (hw : box.2.1 - box.1.1 ≠ 0) (hh : box.2.2 - box.1.2 ≠ 0) :
    CoordsOutsideBox box (CoordsInsideBox box coords) = coords := by
  unfold CoordsOutsideBox CoordsInsideBox
  simp only [List.map_map]
  apply list_map_of_fixes
  intro c _
  simp only [Function.comp]
  rw [Prod.ext_iff]
  constructor
  · simp only
    field_simp
  · simp only
    field_simp

/-- Claim C6. Round-trip inverse-transform law: for every transform
descriptor `T` whose crop box has strictly positive width and height and
every aspect ratio with strictly positive entries, the backward map
`ConvertLandmarkCoordinatesToGlobalCoordinates T ar ·` inverts the
conceptual forward map `ToModelLocal` (rotation `Apply` followed by the
map into the crop box): forward-then-backward is the identity on every
point list (exactly, the `ℝ` model has zero floating-point tolerance); in
particular `ApplyReverse (Apply P) = P` for the `AspectRatioAwareRotation`
with the same parameters. -/
theorem convert_landmark_round_trip (p : PreprocInfo) (ar : Vec2)
    (coords : List Vec2)
    (hw : 0 < p.bottomRight.1 - p.topLeft.1)
    (hh : 0 < p.bottomRight.2 - p.topLeft.2)
    (ha1 : 0 < ar.1) (ha2 : 0 < ar.2) :
    ConvertLandmarkCoordinatesToGlobalCoordinates p ar
      (ToModelLocal p ar coords) = coords ∧
    (AspectRatioAwareRotation.mk p.rotationCenter p.rotationInRadians ar).ApplyReverse
      ((AspectRatioAwareRotation.mk p.rotationCenter p.rotationInRadians ar).Apply
        coords) = coords := by
  have hround :
      (AspectRatioAwareRotation.mk p.rotationCenter p.rotationInRadians
          ar).ApplyReverse
        ((AspectRatioAwareRotation.mk p.rotationCenter p.rotationInRadians ar).Apply
          coords) = coords :=
    applyReverse_apply _ coords (ne_of_gt ha1) (ne_of_gt ha2)
  refine ⟨?_, hround⟩
  unfold ConvertLandmarkCoordinatesToGlobalCoordinates ToModelLocal
  rw [coordsOutsideBox_coordsInsideBox (p.topLeft, p.bottomRight) _
    (ne_of_gt hw) (ne_of_gt hh)]
  exact hround

/-- Distances are square roots, hence nonnegative. -/
theorem computeDistanceBetweenVectors_nonneg (v1 v2 : Vec2) :
    0 ≤ ComputeDistanceBetweenVectors v1 v2 :=
  Real.sqrt_nonneg _

/-- The aspect-ratio-aware rotation preserves the number of points. -/
theorem apply_length (r : AspectRatioAwareRotation) (l : List Vec2) :
    (r.Apply l).length = l.length := by
  simp [AspectRatioAwareRotation.Apply, AspectRatioAwareRotation.ApplyInternal,
    Apply2DRotMatTo2DVecs]

/-- A first-occurrence minimiser projects to the minimum of the projected
list. -/
theorem isFirstMinOn_map_min? (f : Vec2 → ℝ) (l : List Vec2) (m : Vec2)
    (h : IsFirstMinOn f l m) : (l.map f).min? = some (f m) := by
  obtain ⟨i, hi, hget, _, hopt⟩ := h
  have hmem : m ∈ l := by
    rw [← hget]
    exact List.getElem_mem hi
  haveI : Std.Antisymm ((· : ℝ) ≤ ·) := ⟨fun h1 h2 => le_antisymm h1 h2⟩
  rw [List.min?_eq_some_iff (fun a => le_refl a) (fun a b => min_choice a b)
    (fun a b c => le_min_iff)]
  refine ⟨List.mem_map_of_mem f hmem, ?_⟩
  intro b hb
  obtain ⟨p, hp, rfl⟩ := List.mem_map.1 hb
  exact hopt p hp

/-- A first-occurrence maximiser projects to the maximum of the projected
list. -/
theorem isFirstMaxOn_map_max? (f : Vec2 → ℝ) (l : List Vec2) (m : Vec2)
    (h : IsFirstMaxOn f l m) : (l.map f).max? = some (f m) := by
  obtain ⟨i, hi, hget, _, hopt⟩ := h
  have hmem : m ∈ l := by
    rw [← hget]
    exact List.getElem_mem hi
  haveI : Std.Antisymm ((· : ℝ) ≤ ·) := ⟨fun h1 h2 => le_antisymm h1 h2⟩
  rw [List.max?_eq_some_iff (fun a => le_refl a) (fun a b => max_choice a b)
    (fun a b c => max_le_iff)]
  refine ⟨List.mem_map_of_mem f hmem, ?_⟩
  intro b hb
  obtain ⟨p, hp, rfl⟩ := List.mem_map.1 hb
  exact hopt p hp

/-- On a nonempty list the extremum-scan record projects exactly to the
minima/maxima of the coordinate projections. -/
theorem extremum_box_minmax (l : List Vec2) (hl : l ≠ []) :
    ((ComputeExtremumCoords l).getD ⟨(0, 0), (0, 0), (0, 0), (0, 0)⟩).minX.1 =
        ((l.map Prod.fst).min?).getD 0 ∧
    ((ComputeExtremumCoords l).getD ⟨(0, 0), (0, 0), (0, 0), (0, 0)⟩).maxX.1 =
        ((l.map Prod.fst).max?).getD 0 ∧
    ((ComputeExtremumCoords l).getD ⟨(0, 0), (0, 0), (0, 0), (0, 0)⟩).minY.2 =
        ((l.map Prod.snd).min?).getD 0 ∧
    ((ComputeExtremumCoords l).getD ⟨(0, 0), (0, 0), (0, 0), (0, 0)⟩).maxY.2 =
        ((l.map Prod.snd).max?).getD 0 := by
  obtain ⟨c, rest, rfl⟩ := List.exists_cons_of_ne_nil hl
  have hce : ComputeExtremumCoords (c :: rest) =
      some (rest.foldl ExtremumStep ⟨c, c, c, c⟩) := rfl
  rw [hce, Option.getD_some]
  refine ⟨?_, ?_, ?_, ?_⟩
  · rw [foldl_extremumStep_minX,
      isFirstMinOn_map_min? _ _ _ (firstMinFold_isFirstMinOn (fun p => p.1) c rest),
      Option.getD_some]
  · rw [foldl_extremumStep_maxX,
      isFirstMaxOn_map_max? _ _ _ (firstMaxFold_isFirstMaxOn (fun p => p.1) c rest),
      Option.getD_some]
  · rw [foldl_extremumStep_minY,
      isFirstMinOn_map_min? _ _ _ (firstMinFold_isFirstMinOn (fun p => p.2) c rest),
      Option.getD_some]
  · rw [foldl_extremumStep_maxY,
      isFirstMaxOn_map_max? _ _ _ (firstMaxFold_isFirstMaxOn (fun p => p.2) c rest),
      Option.getD_some]

/-- The source's `-1`-seeded maximum loop over the six distances equals
the plain maximum once the first entry is nonnegative. -/
theorem foldl_max_sixdist (d1 d2 d3 d4 d5 d6 : ℝ) (h : 0 ≤ d1) :
    List.foldl max (-1) [d1, d2, d3, d4, d5, d6] =
      max (max (max (max (max d1 d2) d3) d4) d5) d6 := by
  simp only [List.foldl_cons, List.foldl_nil]
  rw [max_eq_right (by linarith : (-1 : ℝ) ≤ d1)]

/-- Claim C3. For every 21-point landmark coordinate list, aspect ratio and
slack value, `ComputePreprocInfoFromLanCoords` computes exactly the
specification's `ComputeTransformFromLandmarkOutput`: landmark 20 and
landmark 5 are the rotation reference points, all 21 points are rotated
into the canonical frame, the axis-aligned bounding box of all rotated
points is taken, and it is expanded on each side by `slack` times the
maximum of the fixed set of six pairwise distances among the wrist and
finger-base landmarks, measured in absolute pixel coordinates and
converted back to relative units per axis independently. -/
theorem lan_preproc_matches_spec (coords : List Vec2) (ar : Vec2) (slack : ℝ)
    (hlen : coords.length = 21) :
    ComputePreprocInfoFromLanCoords coords ar slack =
      ComputeTransformFromLandmarkOutputSpec coords ar slack := by
  have hne : (AspectRatioAwareRotation.mk
      (DivideVectors (AddVectors (coords.getD 20 (0, 0)) (coords.getD 5 (0, 0)))
        (2, 2))
      (SixPointRotationInRadians (coords.getD 20 (0, 0)) (coords.getD 5 (0, 0)) ar)
      ar).Apply coords ≠ [] := by
    intro hemp
    have := apply_length (AspectRatioAwareRotation.mk
      (DivideVectors (AddVectors (coords.getD 20 (0, 0)) (coords.getD 5 (0, 0)))
        (2, 2))
      (SixPointRotationInRadians (coords.getD 20 (0, 0)) (coords.getD 5 (0, 0)) ar)
      ar) coords
    rw [hemp, hlen] at this
    simp at this
  obtain ⟨hminX, hmaxX, hminY, hmaxY⟩ := extremum_box_minmax _ hne
  have hdmax := foldl_max_sixdist
    (ComputeDistanceBetweenVectors
      ((MakeCoordsAbsolute coords ar.1 ar.2).getD 20 (0, 0))
      ((MakeCoordsAbsolute coords ar.1 ar.2).getD 16 (0, 0)))
    (ComputeDistanceBetweenVectors
      ((MakeCoordsAbsolute coords ar.1 ar.2).getD 20 (0, 0))
      ((MakeCoordsAbsolute coords ar.1 ar.2).getD 1 (0, 0)))
    (ComputeDistanceBetweenVectors
      ((MakeCoordsAbsolute coords ar.1 ar.2).getD 20 (0, 0))
      ((MakeCoordsAbsolute coords ar.1 ar.2).getD 5 (0, 0)))
    (ComputeDistanceBetweenVectors
      ((MakeCoordsAbsolute coords ar.1 ar.2).getD 20 (0, 0))
      ((MakeCoordsAbsolute coords ar.1 ar.2).getD 9 (0, 0)))
    (ComputeDistanceBetweenVectors
      ((MakeCoordsAbsolute coords ar.1 ar.2).getD 20 (0, 0))
      ((MakeCoordsAbsolute coords ar.1 ar.2).getD 13 (0, 0)))
    (ComputeDistanceBetweenVectors
      ((MakeCoordsAbsolute coords ar.1 ar.2).getD 13 (0, 0))
      ((MakeCoordsAbsolute coords ar.1 ar.2).getD 1 (0, 0)))
    (computeDistanceBetweenVectors_nonneg _ _)
  simp only [ComputePreprocInfoFromLanCoords,
    ComputeTransformFromLandmarkOutputSpec, AddLanSlack,
    ComputeTopLeftBottomRightFromExtremumCoords, PreprocInfo.mk.injEq,
    Prod.mk.injEq]
  rw [hminX, hmaxX, hminY, hmaxY, hdmax]
  simp

/-- Witness for C3 at a concrete 21-point list. -/
theorem lan_preproc_matches_spec_witness :
    ((List.range 21).map (fun n : ℕ => ((n : ℝ) / 21, (n : ℝ) / 42))).length = 21 ∧
    ComputePreprocInfoFromLanCoords
        ((List.range 21).map (fun n : ℕ => ((n : ℝ) / 21, (n : ℝ) / 42))) (4, 3)
        (3/4) =
      ComputeTransformFromLandmarkOutputSpec
        ((List.range 21).map (fun n : ℕ => ((n : ℝ) / 21, (n : ℝ) / 42))) (4, 3)
        (3/4) :=
  ⟨by rw [List.length_map, List.length_range],
   lan_preproc_matches_spec _ (4, 3) (3/4)
     (by rw [List.length_map, List.length_range])⟩

/-- Witness for C6 at a concrete axis-aligned transform descriptor. -/
theorem convert_landmark_round_trip_witness :
    ((0 : ℝ) <
        (PreprocInfo.mk (1/2, 1/2) 0 (0, 0) (1, 1) false).bottomRight.1 -
          (PreprocInfo.mk (1/2, 1/2) 0 (0, 0) (1, 1) false).topLeft.1) ∧
    ConvertLandmarkCoordinatesToGlobalCoordinates
        (PreprocInfo.mk (1/2, 1/2) 0 (0, 0) (1, 1) false) (1, 1)
        (ToModelLocal (PreprocInfo.mk (1/2, 1/2) 0 (0, 0) (1, 1) false) (1, 1)
          [(1/3, 1/4)]) = [(1/3, 1/4)] :=
  ⟨by norm_num,
   (convert_landmark_round_trip (PreprocInfo.mk (1/2, 1/2) 0 (0, 0) (1, 1) false)
      (1, 1) [(1/3, 1/4)] (by norm_num) (by norm_num) (by norm_num)
      (by norm_num)).1⟩

/-- Claim C2. In every execution of the tracking loop: whenever the
just-emitted result's `isHandPresentProb` falls below
`minHandPresenceProbabilityThreshold`, the stored transform descriptor is
discarded (the loop leaves TRACKING for SEEKING) and on the next tick the
box model is invoked — with the identity full-frame transform descriptor
`BOX_PREPROC_INFO` — before the next landmark-model invocation; whenever
the emitted presence probability is at or above the threshold, the next
tick reuses the transform derived from the landmark output and invokes
only the landmark model. -/
theorem tracking_presence_threshold_transitions (config : EngineConfig)
    (aspectRatio : Vec2) (boxModel lanModel : PreprocInfo → ModelResult)
    (state : Option PreprocInfo) (out : TickOutput)
    (hrun : EngineTick config aspectRatio boxModel lanModel state =
      Except.ok out) :
    (out.result.isHandPresentProb < config.minHandPresenceProbabilityThreshold →
      out.nextInfo = none ∧
      ∀ out2, EngineTick config aspectRatio boxModel lanModel out.nextInfo =
          Except.ok out2 →
        ∃ p, out2.trace =
          [ModelInvocation.box BOX_PREPROC_INFO, ModelInvocation.lan p]) ∧
    (config.minHandPresenceProbabilityThreshold ≤ out.result.isHandPresentProb →
      ∃ p, ModelInvocation.lan p ∈ out.trace ∧
        out.nextInfo = some (LanDerivedInfo config aspectRatio lanModel p) ∧
        ∃ out2, EngineTick config aspectRatio boxModel lanModel out.nextInfo =
            Except.ok out2 ∧
          out2.trace =
            [ModelInvocation.lan (LanDerivedInfo config aspectRatio lanModel p)]) := by
  -- Whatever the state, the tick ends in the landmark phase on some
  -- descriptor `pi`; extract it together with the shape of `out`.
  have hshape : ∃ pi pre,
      out = ⟨pre ++ [ModelInvocation.lan pi],
             (LanPhase config aspectRatio lanModel pi).1,
             (LanPhase config aspectRatio lanModel pi).2⟩ := by
    cases state with
    | none =>
        simp only [EngineTick] at hrun
        cases hbox : ComputePreprocInfoFromBoxCoords
            (boxModel BOX_PREPROC_INFO).coordinates aspectRatio
            (config.__boxSlack : ℝ) with
        | error e => rw [hbox] at hrun; exact absurd hrun (by simp)
        | ok pb =>
            rw [hbox] at hrun
            simp only [Except.ok.injEq] at hrun
            exact ⟨pb, [ModelInvocation.box BOX_PREPROC_INFO], hrun.symm⟩
    | some pi =>
        simp only [EngineTick, Except.ok.injEq] at hrun
        exact ⟨pi, [], hrun.symm⟩
  obtain ⟨pi, pre, rfl⟩ := hshape
  constructor
  · intro hlow
    have hnext : (LanPhase config aspectRatio lanModel pi).2 = none := by
      simp only [LanPhase] at hlow ⊢
      rw [if_pos hlow]
    refine ⟨hnext, ?_⟩
    intro out2 hrun2
    rw [hnext] at hrun2
    simp only [EngineTick] at hrun2
    cases hbox : ComputePreprocInfoFromBoxCoords
        (boxModel BOX_PREPROC_INFO).coordinates aspectRatio
        (config.__boxSlack : ℝ) with
    | error e => rw [hbox] at hrun2; exact absurd hrun2 (by simp)
    | ok pb =>
        rw [hbox] at hrun2
        simp only [Except.ok.injEq] at hrun2
        exact ⟨pb, by rw [← hrun2]⟩
  · intro hhigh
    have hnotlow : ¬ ((LanPhase config aspectRatio lanModel pi).1.isHandPresentProb <
        config.minHandPresenceProbabilityThreshold) := not_lt.mpr hhigh
    have hnext : (LanPhase config aspectRatio lanModel pi).2 =
        some (LanDerivedInfo config aspectRatio lanModel pi) := by
      simp only [LanPhase] at hnotlow ⊢
      rw [if_neg hnotlow]
      rfl
    refine ⟨pi, by simp, hnext, ?_⟩
    rw [hnext]
    exact ⟨_, rfl, rfl⟩

/-- Witness for C2: the presence-loss scenario with landmark-stub classes
`[0, 0, 1, 0]` — the emitted presence probability is 0, below the default
threshold 0.5, and the stored transform is discarded. -/
theorem tracking_presence_threshold_transitions_witness :
    EngineTick DEFAULT_CONFIG (1, 1) WitnessBoxModel WitnessLanModel
        (some BOX_PREPROC_INFO) = Except.ok WitnessTickOutput ∧
    WitnessTickOutput.result.isHandPresentProb <
      DEFAULT_CONFIG.minHandPresenceProbabilityThreshold ∧
    WitnessTickOutput.nextInfo = none := by
  have hrun : EngineTick DEFAULT_CONFIG (1, 1) WitnessBoxModel WitnessLanModel
      (some BOX_PREPROC_INFO) = Except.ok WitnessTickOutput := rfl
  have hlow : WitnessTickOutput.result.isHandPresentProb <
      DEFAULT_CONFIG.minHandPresenceProbabilityThreshold := by
    show (LanPhase DEFAULT_CONFIG (1, 1) WitnessLanModel
        BOX_PREPROC_INFO).1.isHandPresentProb <
      DEFAULT_CONFIG.minHandPresenceProbabilityThreshold
    simp only [LanPhase, WitnessLanModel,
      AssembleTrackResultFromCoordinatesAndClasses, DEFAULT_CONFIG]
    norm_num
  exact ⟨hrun, hlow,
    ((tracking_presence_threshold_transitions DEFAULT_CONFIG (1, 1)
        WitnessBoxModel WitnessLanModel (some BOX_PREPROC_INFO)
        WitnessTickOutput hrun).1 hlow).1⟩

/-- Appending one event extends a stream's report list iff the event is
that stream's. -/
theorem streamReports_append {n : ℕ} (trace : List (StreamEvent n)) (j : Fin n)
    (r : ℚ) (i : Fin n) :
    StreamReports (trace ++ [(j, r)]) i =
      StreamReports trace i ++ (if j = i then [r] else []) := by
  by_cases h : j = i
  · simp [StreamReports, List.filter_append, h]
  · simp [StreamReports, List.filter_append, h]

/-- The latest report of the stream an event belongs to is that event's
value. -/
theorem lastReport_append_self {n : ℕ} (trace : List (StreamEvent n)) (j : Fin n)
    (r : ℚ) :
    LastReport (trace ++ [(j, r)]) j = r := by
  rw [LastReport, streamReports_append, if_pos rfl]
  simp

/-- Other streams' latest reports are unchanged by an event. -/
theorem lastReport_append_other {n : ℕ} (trace : List (StreamEvent n)) (j : Fin n)
    (r : ℚ) (i : Fin n) (h : j ≠ i) :
    LastReport (trace ++ [(j, r)]) i = LastReport trace i := by
  rw [LastReport, streamReports_append, if_neg h]
  simp [LastReport]

/-- A stream has reported on `trace ++ [(j, r)]` iff it had reported
before or it is stream `j`. -/
theorem hasReported_append {n : ℕ} (trace : List (StreamEvent n)) (j : Fin n)
    (r : ℚ) (i : Fin n) :
    HasReported (trace ++ [(j, r)]) i = (HasReported trace i || (j == i)) := by
  simp [HasReported, List.any_append]

/-- Lemma: `getLast?` of a cons, expressed with a default value. -/
theorem getLast?_cons_getD (a : ℚ) (l : List ℚ) :
    (a :: l).getLast? = some (l.getLast?.getD a) := by
  induction l generalizing a with
  | nil => rfl
  | cons b bs ih =>
      rw [List.getLast?_cons_cons, ih b]
      cases hbs : (b :: bs).getLast? with
      | none => exact absurd hbs (by rw [ih b]; simp)
      | some x =>
          rw [ih b] at hbs
          simp only [Option.some.injEq] at hbs
          simp [hbs]

/-- The closure-state invariant of the progress aggregator: `prev` holds
each stream's latest report, `first` marks the streams that have not
reported, `totalReceived` is the sum of the latest reports (each stream's
latest counted exactly once), and `totalSize` accumulates each reporting
stream's total exactly once. -/
theorem progressRun_invariant {n : ℕ} (t : Fin n → ℚ)
    (trace : List (StreamEvent n)) :
    (∀ i, (ProgressRun t trace).prev i = LastReport trace i) ∧
    (∀ i, (ProgressRun t trace).first i = !HasReported trace i) ∧
    (ProgressRun t trace).totalReceived = ∑ i : Fin n, LastReport trace i ∧
    (ProgressRun t trace).totalSize =
      ∑ i : Fin n, if HasReported trace i then t i else 0 := by
  induction trace using List.reverseRecOn with
  | nil =>
      refine ⟨fun i => rfl, fun i => rfl, ?_, ?_⟩
      · simp [ProgressRun, DownloadProgressInit, LastReport, StreamReports]
      · simp [ProgressRun, DownloadProgressInit, HasReported]
  | append_singleton trace e ih =>
      obtain ⟨j, r⟩ := e
      obtain ⟨ihprev, ihfirst, ihrecv, ihsize⟩ := ih
      have hrun : ProgressRun t (trace ++ [(j, r)]) =
          ProgressStep t (ProgressRun t trace) (j, r) := by
        simp [ProgressRun, List.foldl_append]
      have hlast : ∀ i, LastReport (trace ++ [(j, r)]) i =
          Function.update (fun i => LastReport trace i) j r i := by
        intro i
        by_cases h : i = j
        · subst h
          rw [lastReport_append_self, Function.update_same]
        · rw [lastReport_append_other _ _ _ _ (Ne.symm h),
            Function.update_noteq h]
      have hsum_recv : ∑ i : Fin n, LastReport (trace ++ [(j, r)]) i =
          r + ∑ i in Finset.univ.erase j, LastReport trace i := by
        rw [Finset.sum_congr rfl (fun i _ => hlast i),
          Finset.sum_update_of_mem (Finset.mem_univ j),
          Finset.sdiff_singleton_eq_erase]
      have hsplit : ∑ i : Fin n, LastReport trace i =
          LastReport trace j + ∑ i in Finset.univ.erase j, LastReport trace i :=
        (Finset.add_sum_erase _ _ (Finset.mem_univ j)).symm
      by_cases hf : (ProgressRun t trace).first j = true
      · -- First report of stream j: its total is accumulated now.
        have hnotrep : HasReported trace j = false := by
          have := ihfirst j
          rw [hf] at this
          simpa using this.symm
        have hstep : ProgressStep t (ProgressRun t trace) (j, r) =
            { totalReceived :=
                (ProgressRun t trace).totalReceived -
                  (ProgressRun t trace).prev j + r
              totalSize := (ProgressRun t trace).totalSize + t j
              first := Function.update (ProgressRun t trace).first j false
              prev := Function.update (ProgressRun t trace).prev j r } := by
          rw [ProgressStep, if_pos hf]
        rw [hrun, hstep]
        dsimp only
        refine ⟨?_, ?_, ?_, ?_⟩
        · intro i
          by_cases h : i = j
          · subst h
            rw [Function.update_same, lastReport_append_self]
          · rw [Function.update_noteq h, ihprev i,
              lastReport_append_other _ _ _ _ (Ne.symm h)]
        · intro i
          by_cases h : i = j
          · subst h
            rw [Function.update_same, hasReported_append, hnotrep]
            simp
          · rw [Function.update_noteq h, ihfirst i, hasReported_append]
            have : (j == i) = false := by
              simpa using Ne.symm h
            rw [this, Bool.or_false]
        · rw [hsum_recv, ihrecv, ihprev j, hsplit]
          ring
        · rw [ihsize]
          have hsummand : ∀ i : Fin n,
              (if HasReported (trace ++ [(j, r)]) i then t i else 0) =
                Function.update
                  (fun i => if HasReported trace i then t i else 0) j (t j) i := by
            intro i
            by_cases h : i = j
            · subst h
              rw [hasReported_append, Function.update_same]
              simp
            · rw [hasReported_append, Function.update_noteq h]
              have : (j == i) = false := by
                simpa using Ne.symm h
              rw [this, Bool.or_false]
          rw [Finset.sum_congr rfl (fun i _ => hsummand i),
            Finset.sum_update_of_mem (Finset.mem_univ j),
            Finset.sdiff_singleton_eq_erase]
          have : ∑ i : Fin n, (if HasReported trace i then t i else 0) =
              (if HasReported trace j then t j else 0) +
                ∑ i in Finset.univ.erase j,
                  (if HasReported trace i then t i else 0) :=
            (Finset.add_sum_erase _ _ (Finset.mem_univ j)).symm
          rw [this, hnotrep]
          simp only [Bool.false_eq_true, if_false]
          ring
      · -- Stream j has reported before: its total is not re-accumulated.
        have hrep : HasReported trace j = true := by
          have := ihfirst j
          rw [Bool.not_eq_true] at hf
          rw [hf] at this
          simpa using this.symm
        have hstep : ProgressStep t (ProgressRun t trace) (j, r) =
            { totalReceived :=
                (ProgressRun t trace).totalReceived -
                  (ProgressRun t trace).prev j + r
              totalSize := (ProgressRun t trace).totalSize
              first := (ProgressRun t trace).first
              prev := Function.update (ProgressRun t trace).prev j r } := by
          rw [ProgressStep, if_neg (by simp [hf])]
        rw [hrun, hstep]
        dsimp only
        refine ⟨?_, ?_, ?_, ?_⟩
        · intro i
          by_cases h : i = j
          · subst h
            rw [Function.update_same, lastReport_append_self]
          · rw [Function.update_noteq h, ihprev i,
              lastReport_append_other _ _ _ _ (Ne.symm h)]
        · intro i
          by_cases h : i = j
          · subst h
            rw [ihfirst i, hasReported_append, hrep]
            simp
          · rw [ihfirst i, hasReported_append]
            have : (j == i) = false := by
              simpa using Ne.symm h
            rw [this, Bool.or_false]
        · rw [hsum_recv, ihrecv, ihprev j, hsplit]
          ring
        · rw [ihsize]
          apply Finset.sum_congr rfl
          intro i _
          by_cases h : i = j
          · subst h
            rw [hasReported_append, hrep]
            simp
          · rw [hasReported_append]
            have : (j == i) = false := by
              simpa using Ne.symm h
            rw [this, Bool.or_false]

/-- Emissions split along a trace split. -/
theorem progressEmitsFrom_append {n : ℕ} (t : Fin n → ℚ)
    (st : DownloadProgressState n) (l1 l2 : List (StreamEvent n)) :
    ProgressEmitsFrom t st (l1 ++ l2) =
      ProgressEmitsFrom t st l1 ++
        ProgressEmitsFrom t (l1.foldl (ProgressStep t) st) l2 := by
  induction l1 generalizing st with
  | nil => rfl
  | cons e es ih => simp [ProgressEmitsFrom, ih]

/-- Per-stream validity of a trace is inherited by the trace without its
last event. -/
theorem chain_reports_dropLast {n : ℕ} (trace : List (StreamEvent n)) (j : Fin n)
    (r : ℚ) (i : Fin n)
    (h : List.Chain' (· ≤ ·) (0 :: StreamReports (trace ++ [(j, r)]) i)) :
    List.Chain' (· ≤ ·) (0 :: StreamReports trace i) := by
  rw [streamReports_append] at h
  by_cases hij : j = i
  · rw [if_pos hij, ← List.cons_append] at h
    exact (List.chain'_append.1 h).1
  · rwa [if_neg hij, List.append_nil] at h

/-- In a valid trace, an event's reported value dominates its stream's
previous latest report. -/
theorem lastReport_le_of_valid {n : ℕ} (trace : List (StreamEvent n)) (j : Fin n)
    (r : ℚ)
    (h : List.Chain' (· ≤ ·) (0 :: StreamReports (trace ++ [(j, r)]) j)) :
    LastReport trace j ≤ r := by
  rw [streamReports_append, if_pos rfl, ← List.cons_append] at h
  have hlink := (List.chain'_append.1 h).2.2
  exact hlink _ (by rw [getLast?_cons_getD]; rfl) _ rfl

/-- The combined `(received, total)` pairs are monotonically nondecreasing
in both components along any valid interleaving, and the last emitted pair
is the final accumulator state. -/
theorem progress_emits_monotone {n : ℕ} (t : Fin n → ℚ)
    (trace : List (StreamEvent n)) (ht : ∀ i, 0 ≤ t i)
    (hval : ∀ i, List.Chain' (· ≤ ·) (0 :: StreamReports trace i)) :
    List.Chain' (fun a b : ℚ × ℚ => a.1 ≤ b.1 ∧ a.2 ≤ b.2)
      ((0, 0) :: ProgressEmits t trace) ∧
    ((0, 0) :: ProgressEmits t trace).getLast? =
      some ((ProgressRun t trace).totalReceived,
            (ProgressRun t trace).totalSize) := by
  revert hval
  induction trace using List.reverseRecOn with
  | nil =>
      intro hval
      exact ⟨List.chain'_singleton _, rfl⟩
  | append_singleton trace e ih =>
      intro hval
      obtain ⟨j, r⟩ := e
      have hval' : ∀ i, List.Chain' (· ≤ ·) (0 :: StreamReports trace i) :=
        fun i => chain_reports_dropLast trace j r i (hval i)
      obtain ⟨ihchain, ihlast⟩ := ih hval'
      have hrun : ProgressRun t (trace ++ [(j, r)]) =
          ProgressStep t (ProgressRun t trace) (j, r) := by
        simp [ProgressRun, List.foldl_append]
      have hemits : ProgressEmits t (trace ++ [(j, r)]) =
          ProgressEmits t trace ++
            [((ProgressStep t (ProgressRun t trace) (j, r)).totalReceived,
              (ProgressStep t (ProgressRun t trace) (j, r)).totalSize)] := by
        rw [ProgressEmits, progressEmitsFrom_append]
        rfl
      have hprev : (ProgressRun t trace).prev j = LastReport trace j :=
        (progressRun_invariant t trace).1 j
      have hle : LastReport trace j ≤ r := lastReport_le_of_valid trace j r (hval j)
      have hstepmono :
          (ProgressRun t trace).totalReceived ≤
            (ProgressStep t (ProgressRun t trace) (j, r)).totalReceived ∧
          (ProgressRun t trace).totalSize ≤
            (ProgressStep t (ProgressRun t trace) (j, r)).totalSize := by
        by_cases hf : (ProgressRun t trace).first j = true
        · rw [ProgressStep, if_pos hf]
          dsimp only
          constructor
          · rw [hprev]
            linarith
          · linarith [ht j]
        · rw [ProgressStep, if_neg (by simp [Bool.not_eq_true] at hf ⊢; exact hf)]
          dsimp only
          constructor
          · rw [hprev]
            linarith
          · exact le_refl _
      constructor
      · rw [hemits, ← List.cons_append]
        refine List.chain'_append.2 ⟨ihchain, List.chain'_singleton _, ?_⟩
        intro x hx y hy
        rw [ihlast, Option.mem_def, Option.some.injEq] at hx
        simp only [List.head?_cons, Option.mem_def, Option.some.injEq] at hy
        subst hx
        subst hy
        exact hstepmono
      · rw [hemits, ← List.cons_append, List.getLast?_concat, hrun]

/-- Claim C7. For every interleaving of progress callbacks produced by
`CreateProgressCbCreationCbForMultipleDownloads` in which each per-stream
callback reports nondecreasing (nonnegative) received values and a fixed
nonnegative total `t i`, the combined `(received, total)` pairs passed to
the aggregate callback are monotonically nondecreasing in both
components, the combined total accumulates each stream's `t i` exactly
once — on that stream's first callback, never again when the stream
re-reports — and the combined received counts each stream's latest `r`
exactly once. -/
theorem progress_aggregation_invariants {n : ℕ} (t : Fin n → ℚ)
    (trace : List (StreamEvent n)) (ht : ∀ i, 0 ≤ t i)
    (hval : ∀ i, List.Chain' (· ≤ ·) (0 :: StreamReports trace i)) :
    List.Chain' (fun a b : ℚ × ℚ => a.1 ≤ b.1 ∧ a.2 ≤ b.2)
      ((0, 0) :: ProgressEmits t trace) ∧
    (ProgressRun t trace).totalSize =
      (∑ i : Fin n, if HasReported trace i then t i else 0) ∧
    (ProgressRun t trace).totalReceived = ∑ i : Fin n, LastReport trace i :=
  ⟨(progress_emits_monotone t trace ht hval).1,
   (progressRun_invariant t trace).2.2.2,
   (progressRun_invariant t trace).2.2.1⟩

/-- Witness for C7: two streams with totals 10 and 20 and interleaved
reports 5, 4, 7. -/
theorem progress_aggregation_invariants_witness :
    (∀ i : Fin 2, 0 ≤ WitnessStreamTotals i) ∧
    (∀ i : Fin 2,
      List.Chain' (· ≤ ·) (0 :: StreamReports WitnessStreamTrace i)) ∧
    List.Chain' (fun a b : ℚ × ℚ => a.1 ≤ b.1 ∧ a.2 ≤ b.2)
      ((0, 0) :: ProgressEmits WitnessStreamTotals WitnessStreamTrace) :=
  have h1 : ∀ i : Fin 2, 0 ≤ WitnessStreamTotals i := by
    intro i
    fin_cases i <;> norm_num [WitnessStreamTotals]
  have h2 : ∀ i : Fin 2,
      List.Chain' (· ≤ ·) (0 :: StreamReports WitnessStreamTrace i) := by
    intro i
    fin_cases i <;>
      norm_num [StreamReports, WitnessStreamTrace, List.chain'_cons]
  ⟨h1, h2,
   (progress_aggregation_invariants WitnessStreamTotals WitnessStreamTrace
      h1 h2).1⟩

end Yoha
